import Mathlib

/-!
Verification of the sandbox device plugin (pkg/device_plugin).

This file gives a shallow embedding, in Lean 4, of the parts of the Go
package `device_plugin` that the specification's claims are about:

* the `Allocate` RPC handler of `GenericDevicePlugin`
  (generic_device_plugin.go),
* the discovery pass `createIommuDeviceMap` (device_plugin.go),
* the CDI unit-key sort `extractNumber` / `sort.Slice`
  (cdi.go, `generateCDISpecForClass`),
* the resource-name formatter `formatDeviceName` (device_plugin.go),
* the `Start` / `Stop` lifecycle and the auxiliary RPC endpoints of
  `GenericDevicePlugin` (generic_device_plugin.go),
* the `ListAndWatch` streaming loop (generic_device_plugin.go).

Go maps are embedded as association lists (`List (String × _)`); Go's
`map[k] = append(map[k], v)` becomes `mapAppend`.  External effects
(capability stat, PCI enumeration, socket operations, registration) are
embedded as explicit result parameters, so each Go function becomes a
pure Lean function of its inputs and its environment's outcomes.
-/

namespace SandboxDP

/-- Entry of `iommuMap`: the `NvidiaPCIDevice` struct of device_plugin.go. -/
structure NvidiaPCIDevice where
  Address    : String
  DeviceID   : Nat       -- uint16 PCI device ID
  DeviceName : String
  IommuGroup : Int
  IommuFD    : String    -- IOMMUFD device handle; "" when absent
  IsNVSwitch : Bool
  deriving DecidableEq, Repr

/-- A Go `map[string][]α`, embedded as an association list (one entry per
distinct key, in insertion order). -/
abbrev GoMultiMap (α : Type) := List (String × List α)

/-- Keys of an embedded Go map. -/
def mapKeys {α : Type} (m : GoMultiMap α) : List String :=
  m.map Prod.fst

/-- Embeds the Go two-result lookup `v, ok := m[k]`: `some` iff the key is
present (even with an empty value list). -/
def mapLookup {α : Type} (m : GoMultiMap α) (k : String) : Option (List α) :=
  match m with
  | [] => none
  | (k', vs) :: rest => if k' = k then some vs else mapLookup rest k

/-- Embeds Go's `m[k] = append(m[k], v)`: appends to the entry of `k`,
creating the entry when absent. -/
def mapAppend {α : Type} (m : GoMultiMap α) (k : String) (v : α) : GoMultiMap α :=
  match m with
  | [] => [(k, [v])]
  | (k', vs) :: rest =>
      if k' = k then (k', vs ++ [v]) :: rest else (k', vs) :: mapAppend rest k v

/-- The `iommuMap` global: IOMMU group/fd key to the devices in that unit. -/
abbrev IommuMap := GoMultiMap NvidiaPCIDevice

/-! ### Allocate (generic_device_plugin.go)

`Allocate` consults `supportsIOMMUFD()` (a stat on the host; embedded as
an `Except` parameter `cap`), then walks the container requests and their
requested unit keys.  `filepath.Join` is embedded as `/`-concatenation;
the joined components relevant here ("devices", fd names, unit keys that
are map keys) are clean path segments, for which Go's additional
`Clean` step is the identity. -/

/-- Embeds `filepath.Join(a, b)` for clean components. -/
def joinPath (a b : String) : String := a ++ "/" ++ b

/-- A `pluginapi.DeviceSpec` of an allocate response. -/
structure DeviceSpec where
  HostPath      : String
  ContainerPath : String
  Permissions   : String
  deriving DecidableEq, Repr

/-- A `pluginapi.ContainerAllocateResponse` (only the `Devices` field is
populated by this plugin). -/
structure ContainerAllocateResponse where
  Devices : List DeviceSpec
  deriving DecidableEq, Repr

/-- Fd-mode device spec: both paths are `<vfioRoot>/devices/<fdName>`,
permissions `"mrw"`. -/
def fdDeviceSpec (vfioRoot fdName : String) : DeviceSpec :=
  { HostPath      := joinPath (joinPath vfioRoot "devices") fdName
  , ContainerPath := joinPath (joinPath vfioRoot "devices") fdName
  , Permissions   := "mrw" }

/-- Legacy control node spec: `<vfioRoot>/vfio`. -/
def legacyControlSpec (vfioRoot : String) : DeviceSpec :=
  { HostPath      := joinPath vfioRoot "vfio"
  , ContainerPath := joinPath vfioRoot "vfio"
  , Permissions   := "mrw" }

/-- Legacy per-group node spec: `<vfioRoot>/<iommuID>`. -/
def legacyGroupSpec (vfioRoot iommuID : String) : DeviceSpec :=
  { HostPath      := joinPath vfioRoot iommuID
  , ContainerPath := joinPath vfioRoot iommuID
  , Permissions   := "mrw" }

/-- The inner device loop of `Allocate` for one unit's device list: in fd
mode every device must carry an fd handle (else the call errors), and each
device contributes one fd-keyed spec; in legacy mode the loop body is
skipped entirely. -/
def fdSpecsForDevs (iommufdSupported : Bool) (vfioRoot : String) :
    List NvidiaPCIDevice → Except String (List DeviceSpec)
  | [] => .ok []
  | dev :: rest =>
      if iommufdSupported then
        if dev.IommuFD = "" then
          .error ("iommufd device not available for device " ++ dev.Address)
        else do
          let tail ← fdSpecsForDevs iommufdSupported vfioRoot rest
          .ok (fdDeviceSpec vfioRoot dev.IommuFD :: tail)
      else do
        let tail ← fdSpecsForDevs iommufdSupported vfioRoot rest
        .ok tail

/-- Handling of one requested unit key inside `Allocate`: unknown keys fail
the call; in legacy mode the key contributes the control node and the
group-keyed node after the (skipped) device loop. -/
def specsForId (iommufdSupported : Bool) (vfioRoot : String) (im : IommuMap)
    (iommuID : String) : Except String (List DeviceSpec) :=
  match mapLookup im iommuID with
  | none => .error ("invalid allocation request: unknown iommu id: " ++ iommuID)
  | some nvDevs => do
      let fdSpecs ← fdSpecsForDevs iommufdSupported vfioRoot nvDevs
      if iommufdSupported then
        .ok fdSpecs
      else
        .ok (fdSpecs ++ [legacyControlSpec vfioRoot, legacyGroupSpec vfioRoot iommuID])

/-- The per-container key loop of `Allocate`, accumulating `deviceSpecs`
across the requested unit keys in order. -/
def specsForIds (iommufdSupported : Bool) (vfioRoot : String) (im : IommuMap) :
    List String → Except String (List DeviceSpec)
  | [] => .ok []
  | iommuID :: rest => do
      let s ← specsForId iommufdSupported vfioRoot im iommuID
      let tail ← specsForIds iommufdSupported vfioRoot im rest
      .ok (s ++ tail)

/-- The container-request loop of `Allocate`. -/
def allocateContainers (iommufdSupported : Bool) (vfioRoot : String) (im : IommuMap) :
    List (List String) → Except String (List ContainerAllocateResponse)
  | [] => .ok []
  | req :: rest => do
      let specs ← specsForIds iommufdSupported vfioRoot im req
      let tail ← allocateContainers iommufdSupported vfioRoot im rest
      .ok ({ Devices := specs } :: tail)

/-- `GenericDevicePlugin.Allocate`.  `cap` is the outcome of
`supportsIOMMUFD()`; `im` is the map returned by `returnIommuMap()`; a
request is its list of `DevicesIDs` (unit keys).  Any error aborts the
whole call with no response object. -/
def Allocate (cap : Except String Bool) (vfioRoot : String) (im : IommuMap)
    (reqs : List (List String)) : Except String (List ContainerAllocateResponse) :=
  match cap with
  | .error e => .error ("could not determine iommufd support: " ++ e)
  | .ok iommufdSupported => allocateContainers iommufdSupported vfioRoot im reqs

/-- The per-key response shape that a successful `Allocate` produces, read
off from the spec: fd mode yields one fd-keyed node per device of the
unit; legacy mode yields the control node and the group-keyed node,
independently of the unit's device count; unknown keys contribute nothing
(they can only occur in failing calls). -/
def expectedSpecs (iommufdSupported : Bool) (vfioRoot : String) (im : IommuMap)
    (iommuID : String) : List DeviceSpec :=
  match mapLookup im iommuID with
  | none => []
  | some devs =>
      if iommufdSupported then
        devs.map (fun d => fdDeviceSpec vfioRoot d.IommuFD)
      else
        [legacyControlSpec vfioRoot, legacyGroupSpec vfioRoot iommuID]

@[simp] lemma except_ok_bind {α β ε : Type} (a : α) (f : α → Except ε β) :
    (Bind.bind (Except.ok a) f : Except ε β) = f a := rfl

@[simp] lemma except_error_bind {α β ε : Type} (e : ε) (f : α → Except ε β) :
    (Bind.bind (Except.error e) f : Except ε β) = Except.error e := rfl

lemma fdSpecsForDevs_false (vfioRoot : String) (devs : List NvidiaPCIDevice) :
    fdSpecsForDevs false vfioRoot devs = .ok [] := by
  induction devs with
  | nil => rfl
  | cons d rest ih => simp [fdSpecsForDevs, ih]

lemma fdSpecsForDevs_true_ok (vfioRoot : String) (devs : List NvidiaPCIDevice)
    (s : List DeviceSpec) (h : fdSpecsForDevs true vfioRoot devs = .ok s) :
    s = devs.map (fun d => fdDeviceSpec vfioRoot d.IommuFD) ∧
      ∀ d ∈ devs, d.IommuFD ≠ "" := by
  induction devs generalizing s with
  | nil =>
      simp only [fdSpecsForDevs, Except.ok.injEq] at h
      simp [← h]
  | cons d rest ih =>
      by_cases hfd : d.IommuFD = ""
      · simp [fdSpecsForDevs, hfd] at h
      · cases htail : fdSpecsForDevs true vfioRoot rest with
        | error e => simp [fdSpecsForDevs, hfd, htail] at h
        | ok t =>
            simp only [fdSpecsForDevs, if_neg hfd, if_true, htail,
              except_ok_bind, Except.ok.injEq] at h
            obtain ⟨ht, hall⟩ := ih t htail
            subst ht
            constructor
            · simp [← h]
            · intro d' hd'
              rcases List.mem_cons.mp hd' with h1 | h2
              · exact h1 ▸ hfd
              · exact hall d' h2

lemma fdSpecsForDevs_true_err (vfioRoot : String) (devs : List NvidiaPCIDevice)
    (d : NvidiaPCIDevice) (hd : d ∈ devs) (hfd : d.IommuFD = "") :
    ∃ e, fdSpecsForDevs true vfioRoot devs = .error e := by
  induction devs with
  | nil => cases hd
  | cons d0 rest ih =>
      rcases List.mem_cons.mp hd with h1 | h2
      · subst h1
        exact ⟨"iommufd device not available for device " ++ d.Address,
          by simp [fdSpecsForDevs, hfd]⟩
      · by_cases h0 : d0.IommuFD = ""
        · exact ⟨"iommufd device not available for device " ++ d0.Address,
            by simp [fdSpecsForDevs, h0]⟩
        · obtain ⟨e, he⟩ := ih h2
          exact ⟨e, by simp [fdSpecsForDevs, h0, he]⟩

lemma specsForId_ok (iommufdSupported : Bool) (vfioRoot : String) (im : IommuMap)
    (iommuID : String) (s : List DeviceSpec)
    (h : specsForId iommufdSupported vfioRoot im iommuID = .ok s) :
    ∃ devs, mapLookup im iommuID = some devs ∧
      s = expectedSpecs iommufdSupported vfioRoot im iommuID ∧
      (iommufdSupported = true → ∀ d ∈ devs, d.IommuFD ≠ "") := by
  cases hl : mapLookup im iommuID with
  | none => simp [specsForId, hl] at h
  | some devs =>
      refine ⟨devs, rfl, ?_⟩
      cases iommufdSupported with
      | false =>
          have hfd := fdSpecsForDevs_false vfioRoot devs
          simp only [specsForId, hl, hfd, except_ok_bind, Bool.false_eq_true,
            if_false, List.nil_append, Except.ok.injEq] at h
          simp [← h, expectedSpecs, hl]
      | true =>
          cases hfd : fdSpecsForDevs true vfioRoot devs with
          | error e => simp [specsForId, hl, hfd] at h
          | ok t =>
              simp only [specsForId, hl, hfd, except_ok_bind, if_true,
                Except.ok.injEq] at h
              obtain ⟨ht, hall⟩ := fdSpecsForDevs_true_ok vfioRoot devs t hfd
              subst ht
              refine ⟨by simp [← h, expectedSpecs, hl], fun _ => hall⟩

lemma specsForIds_ok (iommufdSupported : Bool) (vfioRoot : String) (im : IommuMap)
    (ids : List String) (s : List DeviceSpec)
    (h : specsForIds iommufdSupported vfioRoot im ids = .ok s) :
    s = ids.flatMap (expectedSpecs iommufdSupported vfioRoot im) ∧
      ∀ id ∈ ids, ∃ devs, mapLookup im id = some devs ∧
        (iommufdSupported = true → ∀ d ∈ devs, d.IommuFD ≠ "") := by
  induction ids generalizing s with
  | nil =>
      simp only [specsForIds, Except.ok.injEq] at h
      simp [← h]
  | cons id rest ih =>
      cases hid : specsForId iommufdSupported vfioRoot im id with
      | error e => simp [specsForIds, hid] at h
      | ok s1 =>
          cases hrest : specsForIds iommufdSupported vfioRoot im rest with
          | error e => simp [specsForIds, hid, hrest] at h
          | ok s2 =>
              simp only [specsForIds, hid, hrest, except_ok_bind,
                Except.ok.injEq] at h
              obtain ⟨hs2, hknown⟩ := ih s2 hrest
              obtain ⟨devs, hdevs, hshape, hhandles⟩ :=
                specsForId_ok iommufdSupported vfioRoot im id s1 hid
              constructor
              · simp [← h, hshape, hs2]
              · intro id' hid'
                rcases List.mem_cons.mp hid' with h1 | h2
                · exact h1 ▸ ⟨devs, hdevs, hhandles⟩
                · exact hknown id' h2

lemma allocateContainers_ok (iommufdSupported : Bool) (vfioRoot : String)
    (im : IommuMap) (reqs : List (List String))
    (rs : List ContainerAllocateResponse)
    (h : allocateContainers iommufdSupported vfioRoot im reqs = .ok rs) :
    rs = reqs.map
        (fun req =>
          { Devices := req.flatMap (expectedSpecs iommufdSupported vfioRoot im) }) ∧
      ∀ req ∈ reqs, ∀ id ∈ req, ∃ devs, mapLookup im id = some devs ∧
        (iommufdSupported = true → ∀ d ∈ devs, d.IommuFD ≠ "") := by
  induction reqs generalizing rs with
  | nil =>
      simp only [allocateContainers, Except.ok.injEq] at h
      simp [← h]
  | cons req rest ih =>
      cases hreq : specsForIds iommufdSupported vfioRoot im req with
      | error e => simp [allocateContainers, hreq] at h
      | ok s =>
          cases hrest : allocateContainers iommufdSupported vfioRoot im rest with
          | error e => simp [allocateContainers, hreq, hrest] at h
          | ok rs2 =>
              simp only [allocateContainers, hreq, hrest, except_ok_bind,
                Except.ok.injEq] at h
              obtain ⟨hs, hknown1⟩ :=
                specsForIds_ok iommufdSupported vfioRoot im req s hreq
              obtain ⟨hrs2, hknown2⟩ := ih rs2 hrest
              constructor
              · simp [← h, hs, hrs2]
              · intro req' hreq' id hid
                rcases List.mem_cons.mp hreq' with h1 | h2
                · exact hknown1 id (h1 ▸ hid)
                · exact hknown2 req' h2 id hid

/-! Concrete fixture mirroring `getFakeIommuMap` of
generic_device_plugin_test.go: units "1" and "2" carry fd handles,
unit "3" does not, key "4" is absent. -/

def devEx1 : NvidiaPCIDevice :=
  { Address := "0000:01:00.0", DeviceID := 0x1b80, DeviceName := "GeForce GTX 1080"
  , IommuGroup := 1, IommuFD := "vfio3", IsNVSwitch := false }

def devEx2 : NvidiaPCIDevice :=
  { Address := "0000:02:00.0", DeviceID := 0x1b81, DeviceName := "GeForce GTX 1070"
  , IommuGroup := 2, IommuFD := "vfio4", IsNVSwitch := false }

def devEx3 : NvidiaPCIDevice :=
  { Address := "0000:03:00.0", DeviceID := 0x1b82, DeviceName := "GeForce GTX 1060"
  , IommuGroup := 3, IommuFD := "", IsNVSwitch := false }

def imEx : IommuMap := [("1", [devEx1]), ("2", [devEx2]), ("3", [devEx3])]

/-- C1: for every Allocate request, if any container request in the batch
contains a unit key not present in the IOMMU map, the whole call returns
an error and no response object — no partial per-container results are
produced, whatever the other keys are and whatever the capability check
returned. -/
theorem allocate_atomic_unknown_key (cap : Except String Bool) (vfioRoot : String)
    (im : IommuMap) (reqs : List (List String))
    (h : ∃ req ∈ reqs, ∃ id ∈ req, mapLookup im id = none) :
    ∃ e, Allocate cap vfioRoot im reqs = .error e := by
  cases cap with
  | error e => exact ⟨"could not determine iommufd support: " ++ e, rfl⟩
  | ok fd =>
      cases hA : allocateContainers fd vfioRoot im reqs with
      | error e => exact ⟨e, by simp [Allocate, hA]⟩
      | ok rs =>
          exfalso
          obtain ⟨req, hreq, id, hid, hnone⟩ := h
          obtain ⟨-, hknown⟩ := allocateContainers_ok fd vfioRoot im reqs rs hA
          obtain ⟨devs, hdevs, -⟩ := hknown req hreq id hid
          rw [hnone] at hdevs
          cases hdevs

/-- Witness for C1: the batch `[["1"], ["4"]]` over the test fixture has one
valid key and one unknown key, and the call errors. -/
theorem allocate_atomic_unknown_key_witness :
    (∃ req ∈ ([["1"], ["4"]] : List (List String)), ∃ id ∈ req,
        mapLookup imEx id = none) ∧
      ∃ e, Allocate (.ok false) "/dev/vfio" imEx [["1"], ["4"]] = .error e := by
  have h : ∃ req ∈ ([["1"], ["4"]] : List (List String)), ∃ id ∈ req,
      mapLookup imEx id = none := by decide
  exact ⟨h, allocate_atomic_unknown_key (.ok false) "/dev/vfio" imEx [["1"], ["4"]] h⟩

/-- C2: every successful `Allocate` response is, container by container, the
concatenation over the requested unit keys of the per-key specs: in fd mode
one fd-keyed node per device of the unit (and success forces every device of
every requested unit to carry an fd handle); in legacy mode exactly two
nodes per requested unit key — the control node and the group-keyed node —
regardless of the unit's device count.  Every emitted spec has identical
host and container path and permission string "mrw". -/
theorem allocate_response_shape (fd : Bool) (vfioRoot : String) (im : IommuMap)
    (reqs : List (List String)) (rs : List ContainerAllocateResponse)
    (h : Allocate (.ok fd) vfioRoot im reqs = .ok rs) :
    rs = reqs.map
        (fun req => { Devices := req.flatMap (expectedSpecs fd vfioRoot im) }) ∧
      (∀ req ∈ reqs, ∀ id ∈ req, ∃ devs, mapLookup im id = some devs ∧
        (fd = true →
          (∀ d ∈ devs, d.IommuFD ≠ "") ∧
          expectedSpecs true vfioRoot im id =
            devs.map (fun d => fdDeviceSpec vfioRoot d.IommuFD) ∧
          (expectedSpecs true vfioRoot im id).length = devs.length) ∧
        (fd = false →
          expectedSpecs false vfioRoot im id =
            [legacyControlSpec vfioRoot, legacyGroupSpec vfioRoot id])) ∧
      (∀ fdName,
        (fdDeviceSpec vfioRoot fdName).HostPath =
            (fdDeviceSpec vfioRoot fdName).ContainerPath ∧
          (fdDeviceSpec vfioRoot fdName).Permissions = "mrw") ∧
      ((legacyControlSpec vfioRoot).HostPath =
          (legacyControlSpec vfioRoot).ContainerPath ∧
        (legacyControlSpec vfioRoot).Permissions = "mrw") ∧
      (∀ id,
        (legacyGroupSpec vfioRoot id).HostPath =
            (legacyGroupSpec vfioRoot id).ContainerPath ∧
          (legacyGroupSpec vfioRoot id).Permissions = "mrw") := by
  have h' : allocateContainers fd vfioRoot im reqs = .ok rs := h
  obtain ⟨hshape, hknown⟩ := allocateContainers_ok fd vfioRoot im reqs rs h'
  refine ⟨hshape, ?_, fun _ => ⟨rfl, rfl⟩, ⟨rfl, rfl⟩, fun _ => ⟨rfl, rfl⟩⟩
  intro req hreq id hid
  obtain ⟨devs, hdevs, hhandles⟩ := hknown req hreq id hid
  refine ⟨devs, hdevs, fun hfd => ?_, fun _ => ?_⟩
  · refine ⟨hhandles hfd, ?_, ?_⟩ <;> simp [expectedSpecs, hdevs]
  · simp [expectedSpecs, hdevs]

/-- Witness for C2: a successful legacy-mode call on unit key "1" yields
exactly the control node and the group-keyed node, matching the per-key
description. -/
theorem allocate_response_shape_witness :
    (Allocate (.ok false) "/dev/vfio" imEx [["1"]] =
        .ok [{ Devices := [legacyControlSpec "/dev/vfio",
                           legacyGroupSpec "/dev/vfio" "1"] }]) ∧
      ([{ Devices := [legacyControlSpec "/dev/vfio",
                      legacyGroupSpec "/dev/vfio" "1"] }]
          : List ContainerAllocateResponse) =
        ([["1"]] : List (List String)).map
          (fun req => { Devices := req.flatMap (expectedSpecs false "/dev/vfio" imEx) }) := by
  have h : Allocate (.ok false) "/dev/vfio" imEx [["1"]] =
      .ok [{ Devices := [legacyControlSpec "/dev/vfio",
                         legacyGroupSpec "/dev/vfio" "1"] }] := by rfl
  exact ⟨h, (allocate_response_shape false "/dev/vfio" imEx [["1"]] _ h).1⟩

/-! ### Discovery engine: `createIommuDeviceMap` (device_plugin.go)

The pass consults `supportsIOMMUFD()` (on error: log and return, globals
untouched), then resets the three global maps, then calls
`nvpciLib.GetAllDevices()` (on error: log and return — the already reset,
empty maps remain), then folds over the enumerated devices. -/

/-- A PCI device as delivered by the nvpci enumeration provider.  The
`IsGPU()` / `IsNVSwitch()` classifiers live in the external go-nvlib
library and are embedded as their boolean results. -/
structure NvDevice where
  Address    : String
  Device     : Nat      -- uint16
  DeviceName : String
  Driver     : String
  IommuGroup : Int
  IommuFD    : String
  isGPU      : Bool
  isNVSwitch : Bool
  deriving DecidableEq, Repr

/-- The three discovery globals: `iommuMap`, `deviceMap`,
`nvSwitchDeviceIDs`. -/
structure DiscoveryState where
  iommuMap : IommuMap
  deviceMap : GoMultiMap String
  nvSwitchDeviceIDs : List String
  deriving DecidableEq, Repr

def emptyDiscoveryState : DiscoveryState :=
  { iommuMap := [], deviceMap := [], nvSwitchDeviceIDs := [] }

/-- Embeds `fmt.Sprintf("%04x", n)` for a uint16: lowercase hex,
zero-padded to width 4. -/
def hex4 (n : Nat) : String :=
  let ds := Nat.toDigits 16 n
  ⟨List.replicate (4 - ds.length) '0' ++ ds⟩

/-- The unit key of a kept device: fd-handle name when fd mode is active
and a handle is present, else the stringified group number
(`strconv.Itoa`). -/
def iommuKeyOf (iommufdSupported : Bool) (dev : NvDevice) : String :=
  if iommufdSupported && dev.IommuFD ≠ "" then dev.IommuFD
  else toString dev.IommuGroup

/-- Go map-as-set insertion `m[x] = true`. -/
def setInsert (s : List String) (x : String) : List String :=
  if s.contains x then s else s ++ [x]

/-- The `NvidiaPCIDevice` record captured into `iommuMap` for a kept
device. -/
def toNvidiaPCIDevice (dev : NvDevice) : NvidiaPCIDevice :=
  { Address := dev.Address, DeviceID := dev.Device, DeviceName := dev.DeviceName
  , IommuGroup := dev.IommuGroup, IommuFD := dev.IommuFD
  , IsNVSwitch := dev.isNVSwitch }

/-- Loop body of `createIommuDeviceMap` for a kept device: the class index
gains the unit key only when the key is new to `iommuMap`; the NVSwitch
set gains the device ID when applicable; the unit gains the device. -/
def addDevice (iommufdSupported : Bool) (st : DiscoveryState) (dev : NvDevice) :
    DiscoveryState :=
  let iommuKey := iommuKeyOf iommufdSupported dev
  let deviceID := hex4 dev.Device
  let deviceMap' :=
    if (mapLookup st.iommuMap iommuKey).isNone then
      mapAppend st.deviceMap deviceID iommuKey
    else st.deviceMap
  let nvIDs' :=
    if dev.isNVSwitch then setInsert st.nvSwitchDeviceIDs deviceID
    else st.nvSwitchDeviceIDs
  { iommuMap := mapAppend st.iommuMap iommuKey (toNvidiaPCIDevice dev)
  , deviceMap := deviceMap'
  , nvSwitchDeviceIDs := nvIDs' }

/-- One iteration of the device loop: skip devices that are neither GPU nor
NVSwitch, skip devices not bound to vfio-pci, keep the rest. -/
def processDevice (iommufdSupported : Bool) (st : DiscoveryState) (dev : NvDevice) :
    DiscoveryState :=
  if !dev.isGPU && !dev.isNVSwitch then st
  else if dev.Driver ≠ "vfio-pci" then st
  else addDevice iommufdSupported st dev

/-- `createIommuDeviceMap`.  `cap` is the outcome of `supportsIOMMUFD()`,
`enum` the outcome of `nvpciLib.GetAllDevices()`, `prev` the global state
left by any previous pass.  A capability error returns before the globals
are reset; an enumeration error returns after they are reset. -/
def createIommuDeviceMap (cap : Except String Bool)
    (enum : Except String (List NvDevice)) (prev : DiscoveryState) :
    DiscoveryState :=
  match cap with
  | .error _ => prev
  | .ok iommufdSupported =>
      match enum with
      | .error _ => emptyDiscoveryState
      | .ok devices => devices.foldl (processDevice iommufdSupported) emptyDiscoveryState

lemma mapLookup_mapAppend_isSome {α : Type} (m : GoMultiMap α) (k k' : String)
    (v : α) :
    (mapLookup (mapAppend m k v) k').isSome ↔ (mapLookup m k').isSome ∨ k' = k := by
  induction m with
  | nil =>
      by_cases h : k = k'
      · simp [mapAppend, mapLookup, h]
      · simp [mapAppend, mapLookup, h, Ne.symm h]
  | cons p rest ih =>
      obtain ⟨k0, vs⟩ := p
      by_cases h0 : k0 = k
      · subst h0
        by_cases h1 : k0 = k'
        · subst h1
          simp [mapAppend, mapLookup]
        · simp [mapAppend, mapLookup, h1, Ne.symm h1]
      · by_cases h1 : k0 = k'
        · subst h1
          simp [mapAppend, mapLookup, h0]
        · simp [mapAppend, mapLookup, h0, h1, ih]

lemma mem_mapAppend {α : Type} (m : GoMultiMap α) (k : String) (v : α)
    (p : String × List α) :
    p ∈ mapAppend m k v →
      p ∈ m ∨ (p.1 = k ∧ ∃ vs, p.2 = vs ++ [v] ∧ ((k, vs) ∈ m ∨ vs = [])) := by
  induction m with
  | nil =>
      intro hp
      simp only [mapAppend, List.mem_singleton] at hp
      subst hp
      exact Or.inr ⟨rfl, [], by simp⟩
  | cons q rest ih =>
      intro hp
      obtain ⟨k0, vs0⟩ := q
      by_cases h0 : k0 = k
      · subst h0
        simp only [mapAppend, if_pos rfl] at hp
        cases hp with
        | head => exact Or.inr ⟨rfl, vs0, rfl, Or.inl (List.mem_cons_self _ _)⟩
        | tail _ h => exact Or.inl (List.mem_cons_of_mem _ h)
      · simp only [mapAppend, if_neg h0] at hp
        cases hp with
        | head => exact Or.inl (List.mem_cons_self _ _)
        | tail _ h =>
          rcases ih h with h' | ⟨hk, vs, hvs, hmem⟩
          · exact Or.inl (List.mem_cons_of_mem _ h')
          · refine Or.inr ⟨hk, vs, hvs, ?_⟩
            rcases hmem with h'' | h''
            · exact Or.inl (List.mem_cons_of_mem _ h'')
            · exact Or.inr h''

/-- The discovery invariant: every class-index list is duplicate-free, and
every unit key recorded in the class index is a key of the unit index. -/
def DiscoveryInv (st : DiscoveryState) : Prop :=
  (∀ p ∈ st.deviceMap, p.2.Nodup) ∧
    ∀ p ∈ st.deviceMap, ∀ k ∈ p.2, (mapLookup st.iommuMap k).isSome

lemma addDevice_inv (fd : Bool) (dev : NvDevice) (st : DiscoveryState)
    (h : DiscoveryInv st) : DiscoveryInv (addDevice fd st dev) := by
  obtain ⟨h1, h2⟩ := h
  by_cases hnew : (mapLookup st.iommuMap (iommuKeyOf fd dev)).isNone
  · constructor
    · intro p hp
      simp only [addDevice, if_pos hnew] at hp
      rcases mem_mapAppend _ _ _ _ hp with hold | ⟨-, vs, hvs, hmem⟩
      · exact h1 p hold
      · rw [hvs]
        have hvnodup : vs.Nodup := by
          rcases hmem with hm | hm
          · exact h1 _ hm
          · simp [hm]
        have hknot : iommuKeyOf fd dev ∉ vs := by
          intro hk
          rcases hmem with hm | hm
          · have := h2 _ hm _ hk
            simp [Option.isNone_iff_eq_none] at hnew
            simp [hnew] at this
          · simp [hm] at hk
        simpa using List.Nodup.append hvnodup (by simp)
            (by simpa [List.disjoint_singleton] using hknot)
    · intro p hp k hk
      simp only [addDevice, if_pos hnew] at hp ⊢
      rw [mapLookup_mapAppend_isSome]
      rcases mem_mapAppend _ _ _ _ hp with hold | ⟨-, vs, hvs, hmem⟩
      · exact Or.inl (h2 p hold k hk)
      · rw [hvs] at hk
        rcases List.mem_append.mp hk with hkv | hkv
        · rcases hmem with hm | hm
          · exact Or.inl (h2 _ hm k hkv)
          · simp [hm] at hkv
        · exact Or.inr (by simpa using hkv)
  · constructor
    · intro p hp
      simp only [addDevice, if_neg hnew] at hp
      exact h1 p hp
    · intro p hp k hk
      simp only [addDevice, if_neg hnew] at hp ⊢
      rw [mapLookup_mapAppend_isSome]
      exact Or.inl (h2 p hp k hk)

lemma processDevice_inv (fd : Bool) (dev : NvDevice) (st : DiscoveryState)
    (h : DiscoveryInv st) : DiscoveryInv (processDevice fd st dev) := by
  unfold processDevice
  split
  · exact h
  · split
    · exact h
    · exact addDevice_inv fd dev st h

lemma foldl_processDevice_inv (fd : Bool) (devices : List NvDevice)
    (st : DiscoveryState) (h : DiscoveryInv st) :
    DiscoveryInv (devices.foldl (processDevice fd) st) := by
  induction devices generalizing st with
  | nil => exact h
  | cons d rest ih => exact ih _ (processDevice_inv fd d st h)

/-- A nonempty prior discovery state, as left by an earlier successful
pass over one GPU. -/
def prevEx : DiscoveryState :=
  { iommuMap := [("1", [devEx1])]
  , deviceMap := [("1b80", ["1"])]
  , nvSwitchDeviceIDs := [] }

/-- C3 counterexample: with a nonempty prior state, an enumeration error
does NOT leave the prior state as it was — the pass has already cleared
the indices before enumeration runs, so the claim as stated is false. -/
theorem discovery_enum_error_clears_prev :
    createIommuDeviceMap (.ok false) (.error "enumeration failed") prevEx ≠ prevEx := by
  decide

/-- C3 (amended): a capability-check failure leaves the prior discovery
state untouched, but an enumeration failure aborts the pass leaving the
state reset to empty — the three indices are cleared before enumeration is
attempted, so the prior state is discarded, not preserved. -/
theorem discovery_failure_state :
    (∀ (e : String) (enum : Except String (List NvDevice)) (prev : DiscoveryState),
        createIommuDeviceMap (.error e) enum prev = prev) ∧
      ∀ (fd : Bool) (e : String) (prev : DiscoveryState),
        createIommuDeviceMap (.ok fd) (.error e) prev = emptyDiscoveryState :=
  ⟨fun _ _ _ => rfl, fun _ _ _ => rfl⟩

/-- C4: after one discovery pass over any enumeration input, no class-index
entry contains a duplicate unit key — a key is appended to a class only
when it is new to the unit index, and it is in the unit index ever after. -/
theorem discovery_class_keys_nodup (fd : Bool) (devices : List NvDevice)
    (prev : DiscoveryState) :
    ∀ p ∈ (createIommuDeviceMap (.ok fd) (.ok devices) prev).deviceMap,
      p.2.Nodup := by
  intro p hp
  have hinv : DiscoveryInv (devices.foldl (processDevice fd) emptyDiscoveryState) :=
    foldl_processDevice_inv fd devices emptyDiscoveryState
      ⟨by simp [emptyDiscoveryState], by simp [emptyDiscoveryState]⟩
  exact hinv.1 p hp

/-- Two kept GPUs sharing IOMMU group 1 and device ID 0x1b80. -/
def gEx : NvDevice :=
  { Address := "0000:01:00.0", Device := 0x1b80, DeviceName := "GeForce GTX 1080"
  , Driver := "vfio-pci", IommuGroup := 1, IommuFD := ""
  , isGPU := true, isNVSwitch := false }

def gEx2 : NvDevice :=
  { Address := "0000:01:00.1", Device := 0x1b80, DeviceName := "GeForce GTX 1080"
  , Driver := "vfio-pci", IommuGroup := 1, IommuFD := ""
  , isGPU := true, isNVSwitch := false }

/-- Witness for C4: two kept devices sharing unit key "1" yield a class
entry holding "1" exactly once. -/
theorem discovery_class_keys_nodup_witness :
    (("1b80", ["1"])
        ∈ (createIommuDeviceMap (.ok false) (.ok [gEx, gEx2])
            emptyDiscoveryState).deviceMap) ∧
      (["1"] : List String).Nodup := by
  have hm : ("1b80", ["1"])
      ∈ (createIommuDeviceMap (.ok false) (.ok [gEx, gEx2])
          emptyDiscoveryState).deviceMap := by decide
  exact ⟨hm, discovery_class_keys_nodup false [gEx, gEx2] emptyDiscoveryState
    ("1b80", ["1"]) hm⟩

/-! ### CDI unit-key ordering (cdi.go)

`generateCDISpecForClass` copies the scoped unit keys and sorts them with
`sort.Slice(keys, func(i, j) { return extractNumber(keys[i]) <
extractNumber(keys[j]) })`.  `sort.Slice` is an unstable sort: its output
is some permutation of the input that is nondecreasing under
`extractNumber`.  The embedding fixes one admissible outcome (insertion
sort under the induced `≤`); every property proved below depends only on
the multiset and on sortedness, which all admissible outcomes share. -/

/-- Embeds `strings.TrimLeft(s, "abc...xyzABC...XYZ")`: drops the maximal
leading run of ASCII letters (the cutset is exactly the 52 ASCII
letters). -/
def trimLeftLetters (s : String) : String :=
  ⟨s.toList.dropWhile
    (fun c => (97 ≤ c.toNat && c.toNat ≤ 122) || (65 ≤ c.toNat && c.toNat ≤ 90))⟩

/-- Digit-run value for `strconv.Atoi`: `none` unless the list is a
nonempty run of ASCII digits. -/
def parseDigits (cs : List Char) : Option Nat :=
  if cs = [] then none
  else if cs.all (fun c => 48 ≤ c.toNat && c.toNat ≤ 57) then
    some (cs.foldl (fun acc c => acc * 10 + (c.toNat - 48)) 0)
  else none

/-- Embeds `strconv.Atoi` on a 64-bit platform: optional sign, a nonempty
digit run, and the value must fit in int64 (on a range error Go returns a
non-nil error, which `extractNumber` maps to 0 just like a syntax
error). -/
def goAtoi (s : String) : Option Int :=
  match s.toList with
  | [] => none
  | c :: rest =>
      let signed : Bool × List Char :=
        if c = '+' then (false, rest)
        else if c = '-' then (true, rest)
        else (false, c :: rest)
      match parseDigits signed.2 with
      | none => none
      | some n =>
          let v : Int := if signed.1 then -(n : Int) else (n : Int)
          if -(2 ^ 63) ≤ v ∧ v ≤ 2 ^ 63 - 1 then some v else none

/-- `extractNumber` of cdi.go: strip any leading alphabetic prefix, parse
the rest as an integer, 0 on any parse error. -/
def extractNumber (s : String) : Int :=
  match goAtoi (trimLeftLetters s) with
  | some n => n
  | none => 0

/-- The comparison induced by the `sort.Slice` less function of
`generateCDISpecForClass`. -/
def iommuKeyLE (a b : String) : Prop := extractNumber a ≤ extractNumber b

instance : DecidableRel iommuKeyLE :=
  fun a b => inferInstanceAs (Decidable (extractNumber a ≤ extractNumber b))

instance : IsTotal String iommuKeyLE := ⟨fun _ _ => le_total _ _⟩

instance : IsTrans String iommuKeyLE := ⟨fun _ _ _ => le_trans⟩

/-- The strict variant of the key comparison: numeric suffix strictly
smaller. -/
def iommuKeyLT (a b : String) : Prop := extractNumber a < extractNumber b

instance : IsTrans String iommuKeyLT := ⟨fun _ _ _ => lt_trans⟩

/-- The sorted key sequence of `generateCDISpecForClass` (one admissible
outcome of the unstable `sort.Slice`; see the section comment). -/
def sortIommuKeys (l : List String) : List String :=
  l.insertionSort iommuKeyLE

/-- C5 counterexample: on the key set containing "vfio8" and "8" — two
distinct keys with the same numeric suffix 8 — no output of the sort has
strictly increasing numeric suffixes, so the claim as stated is false. -/
theorem cdi_sort_not_strictly_increasing :
    ¬ List.Chain' iommuKeyLT (sortIommuKeys ["vfio8", "8"]) := by
  rw [show sortIommuKeys ["vfio8", "8"] = ["vfio8", "8"] from rfl]
  simp only [List.chain'_cons, List.chain'_singleton, and_true]
  show ¬ iommuKeyLT "vfio8" "8"
  unfold iommuKeyLT
  decide

/-- C5 (amended): the CDI sort permutes the keys into an order that is
nondecreasing by numeric suffix, and strictly increasing whenever the
extracted suffixes are pairwise distinct; in particular every input
ordering of the set containing "vfio9", "vfio10" and "8" sorts to the
sequence "8", "vfio9", "vfio10". -/
theorem cdi_sort_spec (l : List String) :
    (sortIommuKeys l).Perm l ∧
      List.Chain' iommuKeyLE (sortIommuKeys l) ∧
      ((l.map extractNumber).Nodup →
        List.Chain' iommuKeyLT (sortIommuKeys l)) ∧
      (sortIommuKeys ["vfio9", "vfio10", "8"] = ["8", "vfio9", "vfio10"] ∧
        sortIommuKeys ["vfio9", "8", "vfio10"] = ["8", "vfio9", "vfio10"] ∧
        sortIommuKeys ["vfio10", "vfio9", "8"] = ["8", "vfio9", "vfio10"] ∧
        sortIommuKeys ["vfio10", "8", "vfio9"] = ["8", "vfio9", "vfio10"] ∧
        sortIommuKeys ["8", "vfio9", "vfio10"] = ["8", "vfio9", "vfio10"] ∧
        sortIommuKeys ["8", "vfio10", "vfio9"] = ["8", "vfio9", "vfio10"]) := by
  have hperm : (sortIommuKeys l).Perm l := List.perm_insertionSort iommuKeyLE l
  have hs : List.Sorted iommuKeyLE (sortIommuKeys l) :=
    List.sorted_insertionSort iommuKeyLE l
  refine ⟨hperm, List.chain'_iff_pairwise.mpr hs, ?_, ?_⟩
  · intro hnd
    have hmapped : ((sortIommuKeys l).map extractNumber).Nodup :=
      ((hperm.map extractNumber).nodup_iff).mpr hnd
    have hne : List.Pairwise (fun a b => extractNumber a ≠ extractNumber b)
        (sortIommuKeys l) := List.pairwise_map.mp hmapped
    have hlt : List.Pairwise iommuKeyLT (sortIommuKeys l) :=
      (hs.and hne).imp (fun h => lt_of_le_of_ne h.1 h.2)
    exact List.chain'_iff_pairwise.mpr hlt
  · refine ⟨?_, ?_, ?_, ?_, ?_, ?_⟩ <;> decide

/-- Witness for C5: the example key set has pairwise distinct numeric
suffixes (9, 10, 8), so the sorted sequence is strictly increasing. -/
theorem cdi_sort_spec_witness :
    ((["vfio9", "vfio10", "8"] : List String).map extractNumber).Nodup ∧
      List.Chain' iommuKeyLT (sortIommuKeys ["vfio9", "vfio10", "8"]) := by
  have hnd : ((["vfio9", "vfio10", "8"] : List String).map extractNumber).Nodup := by
    decide
  exact ⟨hnd, (cdi_sort_spec ["vfio9", "vfio10", "8"]).2.2.1 hnd⟩

/-! ### formatDeviceName (device_plugin.go)

Pipeline: `strings.ToUpper`, replace "/" and "." by "_", replace every
run matching the regexp `\s+` by one "_" (Go's Perl class `\s` is exactly
`[\t\n\f\r ]`), then delete every run matching `[^a-zA-Z0-9_-]+`.
Characters are compared through their code points (`Char.toNat`). -/

def isLowerAscii (c : Char) : Bool := 97 ≤ c.toNat && c.toNat ≤ 122

/-- Per-character embedding of `strings.ToUpper` (simple Unicode case
mapping): ASCII lowercase maps to uppercase; the only two code points
whose uppercase is ASCII without being ASCII themselves are U+0131
(dotless i, to I) and U+017F (long s, to S).  Every other code point maps
to itself or to another non-ASCII code point; the embedding maps those to
themselves, which the final character filter of `formatDeviceName` deletes
exactly when Go's image would be deleted, so the composite function is
unchanged. -/
def goUpperChar (c : Char) : Char :=
  if isLowerAscii c then Char.ofNat (c.toNat - 32)
  else if c.toNat = 0x131 then 'I'
  else if c.toNat = 0x17F then 'S'
  else c

/-- The two `strings.ReplaceAll` steps: "/" (code 47) and "." (code 46)
become "_". -/
def replaceSlashDot (c : Char) : Char :=
  if c.toNat = 47 || c.toNat = 46 then '_' else c

/-- Go regexp `\s`: tab, newline, form feed, carriage return, space. -/
def isGoSpace (c : Char) : Bool :=
  c.toNat = 9 || c.toNat = 10 || c.toNat = 12 || c.toNat = 13 || c.toNat = 32

/-- Replacement of every `\s+` run by a single underscore; the flag says
whether the previous character was part of a whitespace run. -/
def collapseSpaceRuns : Bool → List Char → List Char
  | _, [] => []
  | prevWs, c :: rest =>
      if isGoSpace c then
        if prevWs then collapseSpaceRuns true rest
        else '_' :: collapseSpaceRuns true rest
      else c :: collapseSpaceRuns false rest

/-- The character class kept by the final deletion step,
`[a-zA-Z0-9_-]`. -/
def isNameChar (c : Char) : Bool :=
  (97 ≤ c.toNat && c.toNat ≤ 122) || (65 ≤ c.toNat && c.toNat ≤ 90) ||
    (48 ≤ c.toNat && c.toNat ≤ 57) || c.toNat = 95 || c.toNat = 45

/-- `formatDeviceName` on the character list: empty input short-circuits
(as in the Go early return), otherwise the four-stage pipeline. -/
def formatDeviceNameList (l : List Char) : List Char :=
  match l with
  | [] => []
  | _ =>
      (collapseSpaceRuns false ((l.map goUpperChar).map replaceSlashDot)).filter
        isNameChar

def formatDeviceName (s : String) : String := ⟨formatDeviceNameList s.toList⟩

/-- The output character class `[A-Z0-9_-]` of the spec. -/
def isUpperNameChar (c : Char) : Bool :=
  (65 ≤ c.toNat && c.toNat ≤ 90) || (48 ≤ c.toNat && c.toNat ≤ 57) ||
    c.toNat = 95 || c.toNat = 45

lemma char_toNat_ofNat (n : Nat) (h : n < 0xD800) : (Char.ofNat n).toNat = n := by
  have hv : n.isValidChar := Or.inl h
  rw [Char.ofNat, dif_pos hv]
  rfl

lemma goUpperChar_not_lower (c : Char) : isLowerAscii (goUpperChar c) = false := by
  unfold goUpperChar
  by_cases h : isLowerAscii c = true
  · rw [if_pos h]
    simp only [isLowerAscii, Bool.and_eq_true, decide_eq_true_eq] at h
    have hofnat : (Char.ofNat (c.toNat - 32)).toNat = c.toNat - 32 :=
      char_toNat_ofNat _ (by omega)
    simp only [isLowerAscii, hofnat, Bool.and_eq_true, decide_eq_true_eq,
      Bool.and_eq_false_iff, decide_eq_false_iff_not]
    omega
  · rw [if_neg h]
    by_cases h1 : c.toNat = 0x131
    · rw [if_pos h1]
      decide
    · rw [if_neg h1]
      by_cases h2 : c.toNat = 0x17F
      · rw [if_pos h2]
        decide
      · rw [if_neg h2]
        exact Bool.eq_false_iff.mpr h

lemma replaceSlashDot_not_lower (c : Char) (h : isLowerAscii c = false) :
    isLowerAscii (replaceSlashDot c) = false := by
  unfold replaceSlashDot
  split
  · decide
  · exact h

lemma mem_collapseSpaceRuns (c : Char) :
    ∀ (b : Bool) (l : List Char), c ∈ collapseSpaceRuns b l → c = '_' ∨ c ∈ l := by
  intro b l
  induction l generalizing b with
  | nil => intro h; simp [collapseSpaceRuns] at h
  | cons d rest ih =>
      intro h
      by_cases hd : isGoSpace d = true
      · cases b with
        | true =>
            simp only [collapseSpaceRuns, hd, if_true] at h
            rcases ih true h with h1 | h2
            · exact Or.inl h1
            · exact Or.inr (List.mem_cons_of_mem _ h2)
        | false =>
            simp only [collapseSpaceRuns, hd, if_true, Bool.false_eq_true,
              if_false] at h
            cases h with
            | head => exact Or.inl rfl
            | tail _ h =>
                rcases ih true h with h1 | h2
                · exact Or.inl h1
                · exact Or.inr (List.mem_cons_of_mem _ h2)
      · simp only [collapseSpaceRuns, hd, if_false, Bool.false_eq_true] at h
        cases h with
        | head => exact Or.inr (List.mem_cons_self _ _)
        | tail _ h =>
            rcases ih false h with h1 | h2
            · exact Or.inl h1
            · exact Or.inr (List.mem_cons_of_mem _ h2)

lemma formatDeviceNameList_chars (l : List Char) :
    ∀ c ∈ formatDeviceNameList l, isUpperNameChar c = true := by
  intro c hc
  cases l with
  | nil => simp [formatDeviceNameList] at hc
  | cons d tl =>
      unfold formatDeviceNameList at hc
      obtain ⟨hmem, hname⟩ := List.mem_filter.mp hc
      have hnl : isLowerAscii c = false := by
        rcases mem_collapseSpaceRuns c _ _ hmem with h_ | hmem2
        · subst h_
          decide
        · obtain ⟨c1, hc1, hc1eq⟩ := List.mem_map.mp hmem2
          obtain ⟨c0, _, hc0eq⟩ := List.mem_map.mp hc1
          subst hc1eq
          exact replaceSlashDot_not_lower _ (hc0eq ▸ goUpperChar_not_lower c0)
      simp only [isNameChar, Bool.or_eq_true, Bool.and_eq_true,
        decide_eq_true_eq] at hname
      simp only [isLowerAscii, Bool.and_eq_false_iff,
        decide_eq_false_iff_not] at hnl
      simp only [isUpperNameChar, Bool.or_eq_true, Bool.and_eq_true,
        decide_eq_true_eq]
      omega

lemma goUpperChar_fixed (c : Char) (h : isUpperNameChar c = true) :
    goUpperChar c = c := by
  simp only [isUpperNameChar, Bool.or_eq_true, Bool.and_eq_true,
    decide_eq_true_eq] at h
  have h1 : ¬ (isLowerAscii c = true) := by
    simp only [isLowerAscii, Bool.and_eq_true, decide_eq_true_eq]
    omega
  have h2 : ¬ (c.toNat = 0x131) := by omega
  have h3 : ¬ (c.toNat = 0x17F) := by omega
  unfold goUpperChar
  rw [if_neg h1, if_neg h2, if_neg h3]

lemma replaceSlashDot_fixed (c : Char) (h : isUpperNameChar c = true) :
    replaceSlashDot c = c := by
  simp only [isUpperNameChar, Bool.or_eq_true, Bool.and_eq_true,
    decide_eq_true_eq] at h
  have h1 : ¬ ((c.toNat = 47 || c.toNat = 46) = true) := by
    simp only [Bool.or_eq_true, decide_eq_true_eq]
    omega
  unfold replaceSlashDot
  rw [if_neg h1]

lemma isGoSpace_of_upper (c : Char) (h : isUpperNameChar c = true) :
    isGoSpace c = false := by
  simp only [isUpperNameChar, Bool.or_eq_true, Bool.and_eq_true,
    decide_eq_true_eq] at h
  simp only [isGoSpace, Bool.or_eq_false_iff, decide_eq_false_iff_not]
  omega

lemma isNameChar_of_upper (c : Char) (h : isUpperNameChar c = true) :
    isNameChar c = true := by
  simp only [isUpperNameChar, Bool.or_eq_true, Bool.and_eq_true,
    decide_eq_true_eq] at h
  simp only [isNameChar, Bool.or_eq_true, Bool.and_eq_true,
    decide_eq_true_eq]
  omega

lemma collapseSpaceRuns_fixed (l : List Char)
    (h : ∀ c ∈ l, isGoSpace c = false) : collapseSpaceRuns false l = l := by
  induction l with
  | nil => rfl
  | cons d rest ih =>
      have hd : isGoSpace d = false := h d (List.mem_cons_self _ _)
      simp only [collapseSpaceRuns, hd, Bool.false_eq_true, if_false]
      rw [ih (fun c hc => h c (List.mem_cons_of_mem _ hc))]

lemma map_id_of_fixed {α : Type} {f : α → α} (l : List α)
    (h : ∀ c ∈ l, f c = c) : l.map f = l := by
  induction l with
  | nil => rfl
  | cons d rest ih =>
      simp only [List.map_cons, h d (List.mem_cons_self _ _),
        ih (fun c hc => h c (List.mem_cons_of_mem _ hc))]

lemma formatDeviceNameList_idem (l : List Char) :
    formatDeviceNameList (formatDeviceNameList l) = formatDeviceNameList l := by
  have hchars := formatDeviceNameList_chars l
  cases hout : formatDeviceNameList l with
  | nil => rfl
  | cons c0 rest =>
      rw [hout] at hchars
      have hupper : ∀ c ∈ c0 :: rest, isUpperNameChar c = true := hchars
      show formatDeviceNameList (c0 :: rest) = c0 :: rest
      unfold formatDeviceNameList
      rw [map_id_of_fixed _ (fun c hc => goUpperChar_fixed c (hupper c hc)),
        map_id_of_fixed _ (fun c hc => replaceSlashDot_fixed c (hupper c hc)),
        collapseSpaceRuns_fixed _ (fun c hc => isGoSpace_of_upper c (hupper c hc))]
      exact List.filter_eq_self.mpr (fun c hc => isNameChar_of_upper c (hupper c hc))

/-- C6: the name formatter is total and idempotent, maps the empty string
to the empty string, and every output character lies in `[A-Z0-9_-]`. -/
theorem formatDeviceName_spec (s : String) :
    formatDeviceName (formatDeviceName s) = formatDeviceName s ∧
      formatDeviceName "" = "" ∧
      ∀ c ∈ (formatDeviceName s).toList, isUpperNameChar c = true := by
  refine ⟨?_, rfl, ?_⟩
  · exact congrArg String.mk (formatDeviceNameList_idem s.toList)
  · intro c hc
    exact formatDeviceNameList_chars s.toList c hc

/-- Witness for C6: the formatter's output on "geforce gtx 1080" contains
'G', and that character is in the allowed output class. -/
theorem formatDeviceName_spec_witness :
    ('G' ∈ (formatDeviceName "geforce gtx 1080").toList) ∧
      isUpperNameChar 'G' = true := by
  have hm : 'G' ∈ (formatDeviceName "geforce gtx 1080").toList := by decide
  exact ⟨hm, (formatDeviceName_spec "geforce gtx 1080").2.2 'G' hm⟩

/-! ### Start / Stop lifecycle (generic_device_plugin.go)

`Start` and `Stop` act on the instance's endpoint state and on the
filesystem socket; the external operations (socket removal, bind,
readiness probe, registration) are embedded as their outcomes in a
`StartEnv`.  Note that in `Start` the readiness-probe error is only
logged: the `err` variable is overwritten by `dpi.Register()`, so the
value returned on the success path is the registration result. -/

/-- Observable lifecycle state of one plugin instance. -/
structure DPState where
  server             : Option Nat  -- dpi.server (none = nil)
  stopSet            : Bool        -- dpi.stop assigned
  socketFileExists   : Bool        -- socket file present on disk
  listenerBound      : Bool        -- net.Listen bound and not closed
  servingStarted     : Bool        -- go dpi.server.Serve(sock) issued
  healthCheckStarted : Bool        -- go dpi.healthCheck() issued
  termSignalsSent    : Nat         -- messages sent on dpi.term
  deriving DecidableEq, Repr

/-- Outcomes of the external operations `Start` performs, in order. -/
structure StartEnv where
  removeErr   : Option String  -- cleanup: os.Remove error other than not-exist
  listenErr   : Option String  -- net.Listen("unix", socketPath)
  waitErr     : Option String  -- waitForGrpcServer: logged, never returned
  registerErr : Option String  -- dpi.Register()
  newServer   : Nat            -- handle produced by grpc.NewServer()
  deriving DecidableEq, Repr

/-- `GenericDevicePlugin.Start`: fails fast when already started, clears a
stale socket, binds the listener (which creates the socket file), creates
and serves the gRPC server, probes readiness (error logged only), then
registers; a registration error is returned with no teardown of anything
built so far. -/
def Start (env : StartEnv) (st : DPState) : DPState × Option String :=
  if st.server.isSome then (st, some "gRPC server already started")
  else
    let st1 := { st with stopSet := true }
    match env.removeErr with
    | some e => (st1, some e)
    | none =>
        let st2 := { st1 with socketFileExists := false }
        match env.listenErr with
        | some e => (st2, some e)
        | none =>
            let st3 := { st2 with
              listenerBound := true, socketFileExists := true
              , server := some env.newServer, servingStarted := true }
            match env.registerErr with
            | some e => (st3, some e)
            | none => ({ st3 with healthCheckStarted := true }, none)

/-- `GenericDevicePlugin.Stop`: with a nil server it returns nil at once;
otherwise it signals terminate, stops the server, clears the handle and
removes the socket file (`removeErr` is the cleanup outcome). -/
def Stop (removeErr : Option String) (st : DPState) : DPState × Option String :=
  if st.server.isNone then (st, none)
  else
    let st1 := { st with
      termSignalsSent := st.termSignalsSent + 1
      , servingStarted := false, listenerBound := false, server := none }
    match removeErr with
    | some e => (st1, some e)
    | none => ({ st1 with socketFileExists := false }, none)

/-- C7: when registration fails, `Start` returns that error and the state
keeps everything built earlier — the server handle is set, the endpoint is
serving, the listener stays bound and the socket file stays on disk; no
rollback happens (and the health watcher is not started). -/
theorem start_register_failure_keeps_endpoint (env : StartEnv) (st : DPState)
    (e : String) (hs : st.server = none) (hc : env.removeErr = none)
    (hl : env.listenErr = none) (hr : env.registerErr = some e) :
    Start env st =
      ({ st with
          stopSet := true, socketFileExists := true,
          listenerBound := true, server := some env.newServer,
          servingStarted := true }, some e) := by
  simp [Start, hs, hc, hl, hr]

/-- A freshly constructed plugin instance (server nil, nothing bound). -/
def stFresh : DPState :=
  { server := none, stopSet := false, socketFileExists := false
  , listenerBound := false, servingStarted := false
  , healthCheckStarted := false, termSignalsSent := 0 }

/-- An environment where everything succeeds except registration. -/
def envRegFail : StartEnv :=
  { removeErr := none, listenErr := none, waitErr := none
  , registerErr := some "registration refused", newServer := 7 }

/-- Witness for C7: on a fresh instance with failing registration, `Start`
returns the registration error with the endpoint left bound and serving. -/
theorem start_register_failure_keeps_endpoint_witness :
    Start envRegFail stFresh =
      ({ stFresh with
          stopSet := true, socketFileExists := true,
          listenerBound := true, server := some envRegFail.newServer,
          servingStarted := true }, some "registration refused") :=
  start_register_failure_keeps_endpoint envRegFail stFresh
    "registration refused" rfl rfl rfl rfl

/-- C10: calling `Stop` on an instance whose server handle is nil returns
nil and performs no action at all — the state (terminate-signal count,
server field, socket file) is exactly unchanged. -/
theorem stop_nil_server_noop (removeErr : Option String) (st : DPState)
    (h : st.server = none) : Stop removeErr st = (st, none) := by
  simp [Stop, h]

/-- Witness for C10: stopping a fresh (never started) instance is a no-op
even when socket removal would fail. -/
theorem stop_nil_server_noop_witness :
    Stop (some "remove failed") stFresh = (stFresh, none) :=
  stop_nil_server_noop (some "remove failed") stFresh rfl

/-! ### Auxiliary RPC endpoints (generic_device_plugin.go)

The three handlers ignore their context and request arguments, so they
are embedded as constants returning (response, error). -/

structure DevicePluginOptions where
  PreStartRequired : Bool
  deriving DecidableEq, Repr

/-- `pluginapi.PreStartContainerResponse` carries no fields used here. -/
structure PreStartContainerResponse where
  deriving DecidableEq, Repr

/-- `pluginapi.PreferredAllocationResponse` (only the container-response
list matters for emptiness). -/
structure PreferredAllocationResponse where
  ContainerResponses : List (List String)
  deriving DecidableEq, Repr

def GetDevicePluginOptions : DevicePluginOptions × Option String :=
  ({ PreStartRequired := false }, none)

def PreStartContainer : PreStartContainerResponse × Option String :=
  ({}, none)

/-- `GetPreferredAllocation` returns a nil response pointer and nil error;
over the wire a nil message marshals exactly like an empty message. -/
def GetPreferredAllocation : Option PreferredAllocationResponse × Option String :=
  (none, none)

/-- Whether a (possibly nil) preferred-allocation response is observably
empty: a nil pointer or a message with no container responses. -/
def preferredAllocationRespEmpty : Option PreferredAllocationResponse → Bool
  | none => true
  | some r => r.ContainerResponses.isEmpty

/-- C8: options report PreStartRequired = false with no error; the
pre-start hook returns an empty acknowledgment with no error; the
preferred-allocation endpoint returns an (observably) empty response with
no error. -/
theorem auxiliary_endpoints_spec :
    GetDevicePluginOptions = ({ PreStartRequired := false }, none) ∧
      PreStartContainer = ({}, none) ∧
      GetPreferredAllocation.2 = none ∧
      preferredAllocationRespEmpty GetPreferredAllocation.1 = true :=
  ⟨rfl, rfl, rfl, rfl⟩

/-! ### ListAndWatch (generic_device_plugin.go)

The stream sends the full device list once on entry, then for every
signal received on the healthy/unhealthy channels it mutates the health
tag of every matching device and re-sends the full list once.  The
embedding folds over the sequence of delivered signals and collects the
emissions. -/

/-- A `pluginapi.Device` as held in `dpi.devs`. -/
structure PlugDevice where
  ID     : String
  Health : String
  deriving DecidableEq, Repr

/-- A message on `dpi.healthy` or `dpi.unhealthy`. -/
inductive HealthSignal where
  | healthy (id : String)
  | unhealthy (id : String)
  deriving DecidableEq, Repr

def signalKey : HealthSignal → String
  | .healthy k => k
  | .unhealthy k => k

/-- Processing of one received signal: every device whose ID matches gets
its health tag overwritten. -/
def applySignal (devs : List PlugDevice) : HealthSignal → List PlugDevice
  | .healthy k =>
      devs.map (fun d => if d.ID = k then { d with Health := "Healthy" } else d)
  | .unhealthy k =>
      devs.map (fun d => if d.ID = k then { d with Health := "Unhealthy" } else d)

/-- The sequence of lists sent over one `ListAndWatch` session that
receives exactly the given signals: the initial emission, then one
emission after each signal. -/
def listAndWatchEmissions (devs : List PlugDevice) :
    List HealthSignal → List (List PlugDevice)
  | [] => [devs]
  | s :: rest => devs :: listAndWatchEmissions (applySignal devs s) rest

lemma applySignal_unmatched (devs : List PlugDevice) (s : HealthSignal)
    (h : signalKey s ∉ devs.map PlugDevice.ID) : applySignal devs s = devs := by
  cases s with
  | healthy k =>
      refine map_id_of_fixed devs (fun d hd => ?_)
      have hne : d.ID ≠ k := fun he =>
        h (by simpa [signalKey] using List.mem_map.mpr ⟨d, hd, he⟩)
      rw [if_neg hne]
  | unhealthy k =>
      refine map_id_of_fixed devs (fun d hd => ?_)
      have hne : d.ID ≠ k := fun he =>
        h (by simpa [signalKey] using List.mem_map.mpr ⟨d, hd, he⟩)
      rw [if_neg hne]

lemma applySignal_ids (devs : List PlugDevice) (s : HealthSignal) :
    (applySignal devs s).map PlugDevice.ID = devs.map PlugDevice.ID := by
  cases s with
  | healthy k =>
      simp only [applySignal, List.map_map]
      refine List.map_congr_left (fun d _ => ?_)
      by_cases hd : d.ID = k <;> simp [hd]
  | unhealthy k =>
      simp only [applySignal, List.map_map]
      refine List.map_congr_left (fun d _ => ?_)
      by_cases hd : d.ID = k <;> simp [hd]

lemma listAndWatchEmissions_length (devs : List PlugDevice)
    (sigs : List HealthSignal) :
    (listAndWatchEmissions devs sigs).length = sigs.length + 1 := by
  induction sigs generalizing devs with
  | nil => rfl
  | cons s rest ih => simp [listAndWatchEmissions, ih]

lemma listAndWatchEmissions_ids (devs : List PlugDevice)
    (sigs : List HealthSignal) :
    ∀ e ∈ listAndWatchEmissions devs sigs,
      e.map PlugDevice.ID = devs.map PlugDevice.ID := by
  induction sigs generalizing devs with
  | nil =>
      intro e he
      simp only [listAndWatchEmissions, List.mem_singleton] at he
      rw [he]
  | cons s rest ih =>
      intro e he
      cases he with
      | head => rfl
      | tail _ he =>
          rw [ih (applySignal devs s) e he, applySignal_ids]

lemma listAndWatchEmissions_head (d : List PlugDevice)
    (sigs : List HealthSignal) (h : 0 < (listAndWatchEmissions d sigs).length) :
    (listAndWatchEmissions d sigs).get ⟨0, h⟩ = d := by
  cases sigs <;> rfl

lemma listAndWatchEmissions_step (devs : List PlugDevice)
    (sigs : List HealthSignal) (i : Nat) (hi : i < sigs.length)
    (hi1 : i + 1 < (listAndWatchEmissions devs sigs).length)
    (h : signalKey (sigs.get ⟨i, hi⟩) ∉
      ((listAndWatchEmissions devs sigs).get ⟨i, by omega⟩).map PlugDevice.ID) :
    (listAndWatchEmissions devs sigs).get ⟨i + 1, hi1⟩ =
      (listAndWatchEmissions devs sigs).get ⟨i, by omega⟩ := by
  induction sigs generalizing devs i with
  | nil => simp at hi
  | cons s rest ih =>
      cases i with
      | zero =>
          have happ : applySignal devs s = devs := by
            refine applySignal_unmatched devs s ?_
            simpa [listAndWatchEmissions] using h
          show (listAndWatchEmissions (applySignal devs s) rest).get ⟨0, _⟩ = devs
          rw [listAndWatchEmissions_head]
          exact happ
      | succ j =>
          have hj : j < rest.length := by simpa using hi
          have hj1 : j + 1 < (listAndWatchEmissions (applySignal devs s) rest).length := by
            simpa [listAndWatchEmissions_length] using hi1
          exact ih (applySignal devs s) j hj hj1 (by simpa using h)

/-- C9: a `ListAndWatch` session emits exactly one list per received
signal after the initial emission; the ID sequence of every emission
equals the initial one; and a signal whose key matches no device leaves
the emitted list identical to the previous emission. -/
theorem listAndWatch_emissions_spec (devs : List PlugDevice)
    (sigs : List HealthSignal) :
    (listAndWatchEmissions devs sigs).length = sigs.length + 1 ∧
      (∀ e ∈ listAndWatchEmissions devs sigs,
        e.map PlugDevice.ID = devs.map PlugDevice.ID) ∧
      ∀ (i : Nat) (hi : i < sigs.length)
        (hi1 : i + 1 < (listAndWatchEmissions devs sigs).length),
        signalKey (sigs.get ⟨i, hi⟩) ∉
            ((listAndWatchEmissions devs sigs).get ⟨i, by omega⟩).map
              PlugDevice.ID →
          (listAndWatchEmissions devs sigs).get ⟨i + 1, hi1⟩ =
            (listAndWatchEmissions devs sigs).get ⟨i, by omega⟩ :=
  ⟨listAndWatchEmissions_length devs sigs,
    listAndWatchEmissions_ids devs sigs,
    fun i hi hi1 h => listAndWatchEmissions_step devs sigs i hi hi1 h⟩

/-- Witness for C9: a two-device session receiving one unhealthy signal
for an absent key "9" re-emits the unchanged list once. -/
theorem listAndWatch_emissions_spec_witness :
    (0 < ([HealthSignal.unhealthy "9"] : List HealthSignal).length) ∧
      (listAndWatchEmissions
          [{ ID := "1", Health := "Healthy" }, { ID := "2", Health := "Healthy" }]
          [HealthSignal.unhealthy "9"]).get ⟨1, by decide⟩ =
        (listAndWatchEmissions
          [{ ID := "1", Health := "Healthy" }, { ID := "2", Health := "Healthy" }]
          [HealthSignal.unhealthy "9"]).get ⟨0, by decide⟩ := by
  refine ⟨by decide, ?_⟩
  exact (listAndWatch_emissions_spec
      [{ ID := "1", Health := "Healthy" }, { ID := "2", Health := "Healthy" }]
      [HealthSignal.unhealthy "9"]).2.2 0 (by decide) (by decide) (by decide)

end SandboxDP
